import Mathlib

/-!
# Verification of the AWS lookup-deduplication cache
(`pkg/cloudprovider/provider/aws/helper.go` of `jichenjc/machine-controller`)

Shallow embedding of the cache-backed lookup helpers `getVpc` and
`getDefaultAMIID`, the static `amiFilters` table, and the process-wide
`gocache` store they share.

Modelling conventions:
* Go errors are `String`s; a fallible call returns `Except String α`.
* The result of a helper is a `LookupResult`: `ok`, `err`, or `panicked`
  (the Go type assertion `v.(*ec2.Vpc)` / `v.(string)` panics when a cache
  entry of the other type is found under the key; this never happens in
  reachable states but the embedding keeps the case explicit).
* The process-wide mutex `cacheLock` is held for the whole body of each
  helper, so a concurrent execution of N callers is equivalent to some
  sequential order of the N whole-body critical sections.  Concurrency
  claims are therefore settled over sequential compositions of atomic
  calls.  Each call additionally produces an event trace (lock, cache and
  query events, in program order) so that statements such as "the cache is
  checked only after the lock is acquired" or "the external query is not
  invoked" are statements about the trace.
* `glog` calls are pure logging and are not modelled.
* Wall-clock time is an abstract `Nat` of nanoseconds passed explicitly
  (`now`); AMI creation timestamps are parsed to `Int` nanoseconds since
  the Go zero time (0001-01-01T00:00:00 UTC), mirroring `time.Parse` which
  returns the zero `Time` together with an error on unparsable input.
-/

/-- A VPC descriptor.  Of `ec2.Vpc` only the identifier is ever read by the
code under study (for logging); the descriptor is otherwise treated as an
opaque value, so one field suffices. -/
structure Vpc where
  vpcId : String
deriving DecidableEq, Repr

/-- An image candidate from `DescribeImages`: the code reads `ImageId` and
`CreationDate` only. -/
structure Image where
  imageId : String
  creationDate : String
deriving DecidableEq, Repr

/-- The request built by `getDefaultAMIID` (helper.go lines 140-156):
owners plus the description / virtualization-type / root-device-type
filters. -/
structure DescribeImagesInput where
  owners : List String
  description : String
  virtualizationType : String
  rootDeviceType : String
deriving DecidableEq, Repr

/-- The external-query collaborator: an `ec2.EC2` client.  `region` is
`*client.Config.Region`; `describeVpcs` is `DescribeVpcs` applied to a
`vpc-id` filter with the given single value; `describeImages` is
`DescribeImages` applied to the built request. -/
structure EC2Client where
  region : String
  describeVpcs : String → Except String (List Vpc)
  describeImages : DescribeImagesInput → Except String (List Image)

/-- Outcome of a helper call: a value, a Go error, or a runtime panic
(failed interface type assertion on a cached value). -/
inductive LookupResult (α : Type) where
  | ok (v : α)
  | err (msg : String)
  | panicked
deriving DecidableEq, Repr

/-- Observable events of one helper call, in program order. -/
inductive Event where
  | lockAcquire
  | lockRelease
  | cacheGet (key : String)
  | cacheSet (key : String)
  | queryVpcs
  | queryImages
deriving DecidableEq, Repr

/-- Is the event an invocation of an external query? -/
def Event.isQuery : Event → Bool
  | .queryVpcs => true
  | .queryImages => true
  | _ => false

/-! ## The time-bounded key/value store

The store is `gocache` (`github.com/patrickmn/go-cache`), an external
dependency whose code is not part of the provided sources; it is modelled
from the spec (§4.1): `Get` returns the stored value iff the key holds an
unexpired entry and has no side effects; `Set` stores the value with
expiration `now + defaultTTL`, the TTL being fixed at construction; lazy
or periodic eviction of expired entries never changes what `Get`
observes. -/

/-- Abstract wall-clock instant (nanoseconds). -/
abbrev Time := Nat

/-- A cached value: the store is heterogeneous (`interface{}`); the two
call sites store a VPC descriptor or an AMI-id string. -/
inductive CacheValue where
  | vpc (v : Vpc)
  | str (s : String)
deriving DecidableEq, Repr

/-- Modelled from the spec: a `gocache` entry, a value paired with the
expiration instant fixed at write time. -/
structure CacheEntry where
  value : CacheValue
  expiration : Time
deriving DecidableEq, Repr

/-- Modelled from the spec: the `gocache` store — a construction-time
default TTL and the keyed entries. -/
structure Cache where
  defaultTTL : Nat
  items : List (String × CacheEntry)
deriving DecidableEq, Repr

/-- First entry stored under the key, if any. -/
def lookupKey (k : String) : List (String × CacheEntry) → Option CacheEntry
  | [] => none
  | (k2, e) :: rest => if k2 = k then some e else lookupKey k rest

/-- Remove every entry stored under the key. -/
def eraseKey (k : String) : List (String × CacheEntry) → List (String × CacheEntry)
  | [] => []
  | (k2, e) :: rest => if k2 = k then eraseKey k rest else (k2, e) :: eraseKey k rest

/-- Modelled from the spec: `cache.Get` — the stored value iff the key
holds an entry whose expiration lies strictly in the future; a pure
function of the store and the clock (no side effects). -/
def Cache.get (c : Cache) (now : Time) (k : String) : Option CacheValue :=
  match lookupKey k c.items with
  | none => none
  | some e => if now < e.expiration then some e.value else none

/-- Modelled from the spec: `cache.SetDefault` — store the value under the
key with expiration `now + defaultTTL`, replacing any previous entry
wholesale. -/
def Cache.setDefault (c : Cache) (now : Time) (k : String) (v : CacheValue) : Cache :=
  ⟨c.defaultTTL, (k, ⟨v, now + c.defaultTTL⟩) :: eraseKey k c.items⟩

/-- Modelled from the spec: the periodic sweep — drop every entry already
expired at sweep time.  The spec requires such eviction to be invisible to
`Get`. -/
def Cache.deleteExpired (c : Cache) (now : Time) : Cache :=
  ⟨c.defaultTTL, c.items.filter (fun p => decide (now < p.2.expiration))⟩

/-- `5 * time.Minute` in nanoseconds. -/
def fiveMinutes : Nat := 5 * 60 * 1000000000

/-- The process-wide store, `gocache.New(5*time.Minute, 5*time.Minute)`
(helper.go line 52): default TTL five minutes, initially empty. -/
def cache : Cache := ⟨fiveMinutes, []⟩

/-! ## RFC3339 timestamp parsing

`getDefaultAMIID` compares image creation dates with
`time.Parse(time.RFC3339, s)`, ignoring the returned error; on error Go
returns the zero `Time` (0001-01-01T00:00:00 UTC).  The parser below
models the RFC3339 layout `2006-01-02T15:04:05Z07:00`: full date, `T`,
time, an optional fractional second, and `Z` or a `±HH:MM` numeric
offset, with the Go range validation (month 1-12, day within the month,
hour ≤ 23, minute/second ≤ 59, offset hour ≤ 23 and minute ≤ 59).  The
result is the instant as `Int` nanoseconds since the Go zero time, so
dates in year 0000 (valid RFC3339, accepted by Go) map to negative
values. -/

/-- Numeric value of a decimal digit character. -/
def digitVal (c : Char) : Option Nat :=
  if c.isDigit then some (c.toNat - 48) else none

/-- Read exactly two decimal digits. -/
def read2 (cs : List Char) : Option (Nat × List Char) :=
  match cs with
  | c1 :: c2 :: rest =>
    match digitVal c1, digitVal c2 with
    | some d1, some d2 => some (10 * d1 + d2, rest)
    | _, _ => none
  | _ => none

/-- Read exactly four decimal digits. -/
def read4 (cs : List Char) : Option (Nat × List Char) :=
  match read2 cs with
  | some (hi, rest) =>
    match read2 rest with
    | some (lo, rest2) => some (100 * hi + lo, rest2)
    | none => none
  | none => none

/-- Consume one expected character. -/
def expectChar (c : Char) (cs : List Char) : Option (List Char) :=
  match cs with
  | c2 :: rest => if c2 = c then some rest else none
  | [] => none

/-- Split off a maximal run of leading decimal digits. -/
def takeDigits : List Char → (List Nat × List Char)
  | [] => ([], [])
  | c :: rest =>
    match digitVal c with
    | some d =>
      let (ds, r) := takeDigits rest
      (d :: ds, r)
    | none => ([], c :: rest)

/-- Decimal value of a digit list. -/
def digitsToNat (ds : List Nat) : Nat :=
  ds.foldl (fun a d => 10 * a + d) 0

/-- Proleptic-Gregorian leap year (as the Go `isLeap`). -/
def isLeapYear (y : Nat) : Bool :=
  y % 4 = 0 && (y % 100 ≠ 0 || y % 400 = 0)

/-- Days in a month of a year. -/
def daysInMonth (y m : Nat) : Nat :=
  if m = 2 then (if isLeapYear y then 29 else 28)
  else if m = 4 || m = 6 || m = 9 || m = 11 then 30
  else 31

/-- Days of the year strictly before month `m`. -/
def daysBeforeMonth (y m : Nat) : Nat :=
  (List.range (m - 1)).foldl (fun acc i => acc + daysInMonth y (i + 1)) 0

/-- Days from 0000-01-01 to the given proleptic-Gregorian date. -/
def daysFromYear0 (y m d : Nat) : Nat :=
  365 * y + (y + 3) / 4 - (y + 99) / 100 + (y + 399) / 400 + daysBeforeMonth y m + (d - 1)

/-- Parse the timezone suffix: `Z` or `±HH:MM`, which must end the input;
result is the offset in seconds east of UTC. -/
def parseOffset (cs : List Char) : Option Int :=
  match cs with
  | ['Z'] => some 0
  | sign :: rest =>
    if sign = '+' || sign = '-' then
      match read2 rest with
      | some (oh, rest2) =>
        match expectChar ':' rest2 with
        | some rest3 =>
          match read2 rest3 with
          | some (om, rest4) =>
            if rest4 = [] && oh ≤ 23 && om ≤ 59 then
              let secs : Int := 3600 * (oh : Int) + 60 * (om : Int)
              some (if sign = '-' then -secs else secs)
            else none
          | none => none
        | none => none
      | none => none
    else none
  | [] => none

/-- Nanoseconds denoted by an optional `.digits` fraction; Go accepts one
to nine digits. -/
def parseFraction (cs : List Char) : Option (Nat × List Char) :=
  match cs with
  | c :: rest =>
    if c = '.' then
      let (ds, r) := takeDigits rest
      if ds.length = 0 || 9 < ds.length then none
      else some (digitsToNat ds * 10 ^ (9 - ds.length), r)
    else some (0, cs)
  | [] => some (0, [])

/-- Parse the `2006-01-02` date part. -/
def parseDate (cs : List Char) : Option (Nat × Nat × Nat × List Char) := do
  let (y, cs) ← read4 cs
  let cs ← expectChar '-' cs
  let (mo, cs) ← read2 cs
  let cs ← expectChar '-' cs
  let (d, cs) ← read2 cs
  some (y, mo, d, cs)

/-- Parse the `15:04:05` clock part. -/
def parseClock (cs : List Char) : Option (Nat × Nat × Nat × List Char) := do
  let (h, cs) ← read2 cs
  let cs ← expectChar ':' cs
  let (mi, cs) ← read2 cs
  let cs ← expectChar ':' cs
  let (se, cs) ← read2 cs
  some (h, mi, se, cs)

/-- The Go field range validation for the parsed components. -/
def fieldsValid (y mo d h mi se : Nat) : Bool :=
  1 ≤ mo && mo ≤ 12 && 1 ≤ d && d ≤ daysInMonth y mo && h ≤ 23 && mi ≤ 59 && se ≤ 59

/-- The instant denoted by validated components: nanoseconds since the Go
zero time (0001-01-01T00:00:00 UTC), offset subtracted. -/
def instantOf (y mo d h mi se : Nat) (ns : Nat) (off : Int) : Int :=
  (((daysFromYear0 y mo d : Int) - 366) * 86400
    + (h : Int) * 3600 + (mi : Int) * 60 + (se : Int) - off) * 1000000000 + (ns : Int)

/-- Model of Go `time.Parse(time.RFC3339, s)`: the parsed instant as
nanoseconds since the Go zero time (0001-01-01T00:00:00 UTC), or `none`
on a parse error. -/
def parseRFC3339 (s : String) : Option Int := do
  let (y, mo, d, cs) ← parseDate s.data
  let cs ← expectChar 'T' cs
  let (h, mi, se, cs) ← parseClock cs
  let (ns, cs) ← parseFraction cs
  let off ← parseOffset cs
  if fieldsValid y mo d h mi se then some (instantOf y mo d h mi se ns off) else none

/-- The instant `getDefaultAMIID` effectively compares for an image:
`time.Parse` with the error discarded, i.e. the parsed instant, or the Go
zero time (encoded `0`) when parsing fails. -/
def imageTime (img : Image) : Int :=
  match parseRFC3339 img.creationDate with
  | some t => t
  | none => 0

/-- One iteration of the selection loop (helper.go lines 167-171): the
candidate `v` replaces the current best `image` iff `vtime.After(itime)`,
i.e. iff the parsed-or-zero instant of v is strictly after that of the best. -/
def pickStep (image v : Image) : Image :=
  if imageTime image < imageTime v then v else image

/-- The selection loop of helper.go lines 165-172: start from the first
candidate and walk the whole list, replacing the current best whenever
the `(time.Parse ∘ CreationDate)` instant of the candidate is strictly
after that of the best (`vtime.After(itime)`), parse errors reading as the zero
time. -/
def pickImage (first : Image) (rest : List Image) : Image :=
  (first :: rest).foldl pickStep first

/-! ## The two cache-backed helpers -/

/-- An apostrophe, kept out of string literals. -/
def squote : String := String.singleton (Char.ofNat 39)

/-- Go `%q` of a plain identifier (quotation marks; escaping of special
characters inside the id is not modelled — no claim exercises such
ids). -/
def goQuote (s : String) : String := "\"" ++ s ++ "\""

/-- Modelled from the spec: `awsErrorToTerminalError` is defined elsewhere
in the repository (outside the provided sources); per §7 it wraps the
upstream failure with context identifying which operation failed and
surfaces it. -/
def awsErrorToTerminalError (err msg : String) : String := msg ++ ": " ++ err

/-- The context message of the getVpc wrap (helper.go line 109; the
literal reads failed-to-list-vpc, apostrophe, s). -/
def failedToListVpcsMsg : String := "failed to list vpc" ++ squote ++ "s"

/-- The cache key of `getVpc` (helper.go line 96):
`fmt.Sprintf("vpc-%s-%s", region, id)`. -/
def vpcCacheKey (region id : String) : String := "vpc-" ++ region ++ "-" ++ id

/-- The cache key of `getDefaultAMIID` (helper.go line 134):
`fmt.Sprintf("ami-id-%s-%s", region, os)`. -/
def amiCacheKey (region os : String) : String := "ami-id-" ++ region ++ "-" ++ os

/-- `getVpc` (helper.go lines 92-118): under the process-wide lock, check
the cache; on a hit return the cached descriptor; on a miss call
`DescribeVpcs` filtered by the id, fail on a query error (wrapped) or on
a match count other than one, otherwise cache and return the unique
descriptor.  Returns (result, store after the call, event trace). -/
def getVpc (client : EC2Client) (id : String) (now : Time) (c : Cache) :
    LookupResult Vpc × Cache × List Event :=
  let key := vpcCacheKey client.region id
  match c.get now key with
  | some (.vpc v) => (.ok v, c, [.lockAcquire, .cacheGet key, .lockRelease])
  | some (.str _) => (.panicked, c, [.lockAcquire, .cacheGet key, .lockRelease])
  | none =>
    match client.describeVpcs id with
    | .error e =>
      (.err (awsErrorToTerminalError e failedToListVpcsMsg), c,
        [.lockAcquire, .cacheGet key, .queryVpcs, .lockRelease])
    | .ok vs =>
      match vs with
      | [v] =>
        (.ok v, c.setDefault now key (.vpc v),
          [.lockAcquire, .cacheGet key, .queryVpcs, .cacheSet key, .lockRelease])
      | _ =>
        (.err ("unable to find specified vpc with id " ++ goQuote id), c,
          [.lockAcquire, .cacheGet key, .queryVpcs, .lockRelease])

/-- Per-operating-system AMI filter (helper.go lines 120-123). -/
structure amiFilter where
  description : String
  owner : String
deriving DecidableEq, Repr

/-- The static filter table (helper.go lines 30-47).  The key strings are
the values of the `providerconfig.OperatingSystem*` constants, which live
outside the provided sources: `"coreos"`, `"centos"`, `"ubuntu"`. -/
def amiFilters (os : String) : Option amiFilter :=
  if os = "coreos" then some ⟨"CoreOS Container Linux stable*", "595879546273"⟩
  else if os = "centos" then some ⟨"CentOS Linux 7 x86_64 HVM EBS*", "679593333241"⟩
  else if os = "ubuntu" then
    some ⟨"Canonical, Ubuntu, 18.04 LTS, amd64 bionic image build on ????-??-??", "099720109477"⟩
  else none

/-- `getDefaultAMIID` (helper.go lines 125-176): under the process-wide
lock, reject an operating system missing from `amiFilters`, otherwise
check the cache; on a miss call `DescribeImages` with the filter, fail on
a query error (returned unwrapped) or an empty candidate list, otherwise
cache and return the image id selected by the newest-wins loop. -/
def getDefaultAMIID (client : EC2Client) (os : String) (now : Time) (c : Cache) :
    LookupResult String × Cache × List Event :=
  match amiFilters os with
  | none =>
    (.err ("operating system " ++ goQuote os ++ " not supported"), c,
      [.lockAcquire, .lockRelease])
  | some filter =>
    let key := amiCacheKey client.region os
    match c.get now key with
    | some (.str s) => (.ok s, c, [.lockAcquire, .cacheGet key, .lockRelease])
    | some (.vpc _) => (.panicked, c, [.lockAcquire, .cacheGet key, .lockRelease])
    | none =>
      match client.describeImages ⟨[filter.owner], filter.description, "hvm", "ebs"⟩ with
      | .error e =>
        (.err e, c, [.lockAcquire, .cacheGet key, .queryImages, .lockRelease])
      | .ok [] =>
        (.err ("could not find Image for " ++ squote ++ os ++ squote), c,
          [.lockAcquire, .cacheGet key, .queryImages, .lockRelease])
      | .ok (first :: rest) =>
        let image := pickImage first rest
        (.ok image.imageId, c.setDefault now key (.str image.imageId),
          [.lockAcquire, .cacheGet key, .queryImages, .cacheSet key, .lockRelease])

/-! ## Serialized concurrent callers

`cacheLock` is held for the entire body of each helper, so N concurrent
callers execute as N whole-body critical sections in sequence.  The
runners below are that sequential composition, threading the store and
collecting the trace of each caller. -/

/-- N serialized `getVpc` callers for one id: results, final store, and
the per-caller traces in order. -/
def runVpcCallers (client : EC2Client) (id : String) (now : Time) :
    Nat → Cache → List (LookupResult Vpc) × Cache × List (List Event)
  | 0, c => ([], c, [])
  | n + 1, c =>
    let (r, c1, tr) := getVpc client id now c
    let (rs, c2, trs) := runVpcCallers client id now n c1
    (r :: rs, c2, tr :: trs)

/-- N serialized `getDefaultAMIID` callers for one operating system. -/
def runAmiCallers (client : EC2Client) (os : String) (now : Time) :
    Nat → Cache → List (LookupResult String) × Cache × List (List Event)
  | 0, c => ([], c, [])
  | n + 1, c =>
    let (r, c1, tr) := getDefaultAMIID client os now c
    let (rs, c2, trs) := runAmiCallers client os now n c1
    (r :: rs, c2, tr :: trs)

/-- Total number of external-query invocations across a list of traces. -/
def queryCount (trs : List (List Event)) : Nat :=
  (trs.map (fun tr => (tr.filter Event.isQuery).length)).sum

/-! ## Store lemmas -/

theorem lookupKey_eraseKey_self (k : String) (l : List (String × CacheEntry)) :
    lookupKey k (eraseKey k l) = none := by
  induction l with
  | nil => rfl
  | cons p rest ih =>
    obtain ⟨k2, e⟩ := p
    by_cases h : k2 = k
    · simpa [eraseKey, h] using ih
    · simpa [eraseKey, lookupKey, h] using ih

theorem lookupKey_eraseKey_ne {k k' : String} (h : k' ≠ k) (l : List (String × CacheEntry)) :
    lookupKey k' (eraseKey k l) = lookupKey k' l := by
  induction l with
  | nil => rfl
  | cons p rest ih =>
    obtain ⟨k2, e⟩ := p
    by_cases h2 : k2 = k
    · subst h2
      simpa [eraseKey, lookupKey, Ne.symm h] using ih
    · by_cases h3 : k2 = k'
      · subst h3
        simp [eraseKey, lookupKey, h2]
      · simp [eraseKey, lookupKey, h2, h3, ih]

theorem lookupKey_filter_none {k : String} {l : List (String × CacheEntry)}
    (p : String × CacheEntry → Bool) (h : lookupKey k l = none) :
    lookupKey k (l.filter p) = none := by
  induction l with
  | nil => rfl
  | cons q rest ih =>
    obtain ⟨k2, e⟩ := q
    by_cases h2 : k2 = k
    · simp [lookupKey, h2] at h
    · simp only [lookupKey, h2, if_false] at h
      by_cases hp : p (k2, e)
      · simpa [List.filter, hp, lookupKey, h2] using ih h
      · simpa [List.filter, hp] using ih h

theorem Cache.get_setDefault_self (c : Cache) (t t' : Time) (k : String) (v : CacheValue) :
    (c.setDefault t k v).get t' k = if t' < t + c.defaultTTL then some v else none := by
  simp [Cache.get, Cache.setDefault, lookupKey]

theorem Cache.get_setDefault_ne (c : Cache) (t t' : Time) {k k' : String} (v : CacheValue)
    (h : k' ≠ k) : (c.setDefault t k v).get t' k' = c.get t' k' := by
  simp [Cache.get, Cache.setDefault, lookupKey, Ne.symm h, lookupKey_eraseKey_ne h]

theorem Cache.get_setDefault_deleteExpired (c : Cache) (t te t' : Time) (k : String)
    (v : CacheValue) (hte : te ≤ t') :
    ((c.setDefault t k v).deleteExpired te).get t' k
      = if t' < t + c.defaultTTL then some v else none := by
  by_cases hs : te < t + c.defaultTTL
  · simp [Cache.setDefault, Cache.deleteExpired, Cache.get, lookupKey, hs]
  · have hmiss : ¬ t' < t + c.defaultTTL := fun h => hs (lt_of_le_of_lt hte h)
    simp only [Cache.setDefault, Cache.deleteExpired, Cache.get, List.filter, hs, decide_eq_true_eq,
      if_neg hmiss, decide_False]
    rw [lookupKey_filter_none _ (lookupKey_eraseKey_self k c.items)]

/-- C8: for every key, a value set into the store at time T with the
construction-time TTL of the store is observed as a hit (the stored value) by
every `Get` strictly before T+TTL and as a miss at or after T+TTL, and a
proactive sweep of expired entries at any time up to the read never
changes what `Get` observes; `Get` is a pure function of the store and
the clock, so it has no side effects by construction. -/
theorem c8_ttl_expiration (c : Cache) (k : String) (v : CacheValue) (T te t' : Time)
    (hte : te ≤ t') :
    ((c.setDefault T k v).get t' k = if t' < T + c.defaultTTL then some v else none) ∧
    (((c.setDefault T k v).deleteExpired te).get t' k
      = if t' < T + c.defaultTTL then some v else none) :=
  ⟨Cache.get_setDefault_self c T t' k v, Cache.get_setDefault_deleteExpired c T te t' k v hte⟩

/-- C8 witness: in the five-minute process-wide store, a value set at 0 is
a hit at 100ns (also after a sweep at 0) and a miss at exactly five
minutes. -/
theorem c8_ttl_expiration_witness :
    (cache.setDefault 0 "k" (CacheValue.str "x")).get 100 "k" = some (CacheValue.str "x") ∧
    ((cache.setDefault 0 "k" (CacheValue.str "x")).deleteExpired 0).get 100 "k"
      = some (CacheValue.str "x") ∧
    (cache.setDefault 0 "k" (CacheValue.str "x")).get fiveMinutes "k" = none := by
  have h1 := c8_ttl_expiration cache "k" (CacheValue.str "x") 0 0 100 (Nat.zero_le _)
  have h2 := c8_ttl_expiration cache "k" (CacheValue.str "x") 0 0 fiveMinutes (Nat.zero_le _)
  refine ⟨?_, ?_, ?_⟩
  · rw [h1.1]; decide
  · rw [h1.2]; decide
  · rw [h2.1]; decide

/-! ## Per-call behavior of the two helpers -/

theorem getVpc_hit {client : EC2Client} {id : String} {now : Time} {c : Cache} {v : Vpc}
    (h : c.get now (vpcCacheKey client.region id) = some (.vpc v)) :
    getVpc client id now c
      = (.ok v, c,
          [.lockAcquire, .cacheGet (vpcCacheKey client.region id), .lockRelease]) := by
  simp [getVpc, h]

theorem getVpc_miss_err {client : EC2Client} {id : String} {now : Time} {c : Cache} {e : String}
    (hm : c.get now (vpcCacheKey client.region id) = none)
    (hq : client.describeVpcs id = .error e) :
    getVpc client id now c
      = (.err (awsErrorToTerminalError e failedToListVpcsMsg), c,
          [.lockAcquire, .cacheGet (vpcCacheKey client.region id), .queryVpcs,
            .lockRelease]) := by
  simp [getVpc, hm, hq]

theorem getVpc_miss_one {client : EC2Client} {id : String} {now : Time} {c : Cache} {v : Vpc}
    (hm : c.get now (vpcCacheKey client.region id) = none)
    (hq : client.describeVpcs id = .ok [v]) :
    getVpc client id now c
      = (.ok v, c.setDefault now (vpcCacheKey client.region id) (.vpc v),
          [.lockAcquire, .cacheGet (vpcCacheKey client.region id), .queryVpcs,
            .cacheSet (vpcCacheKey client.region id), .lockRelease]) := by
  simp [getVpc, hm, hq]

theorem getVpc_miss_badlen {client : EC2Client} {id : String} {now : Time} {c : Cache}
    {vs : List Vpc} (hm : c.get now (vpcCacheKey client.region id) = none)
    (hq : client.describeVpcs id = .ok vs) (hlen : vs.length ≠ 1) :
    getVpc client id now c
      = (.err ("unable to find specified vpc with id " ++ goQuote id), c,
          [.lockAcquire, .cacheGet (vpcCacheKey client.region id), .queryVpcs,
            .lockRelease]) := by
  rcases vs with _ | ⟨a, _ | ⟨b, t⟩⟩
  · simp [getVpc, hm, hq]
  · simp at hlen
  · simp [getVpc, hm, hq]

theorem getDefaultAMIID_unsupported {client : EC2Client} {os : String} {now : Time} {c : Cache}
    (h : amiFilters os = none) :
    getDefaultAMIID client os now c
      = (.err ("operating system " ++ goQuote os ++ " not supported"), c,
          [.lockAcquire, .lockRelease]) := by
  simp [getDefaultAMIID, h]

theorem getDefaultAMIID_hit {client : EC2Client} {os : String} {now : Time} {c : Cache}
    {f : amiFilter} {s : String} (hf : amiFilters os = some f)
    (h : c.get now (amiCacheKey client.region os) = some (.str s)) :
    getDefaultAMIID client os now c
      = (.ok s, c,
          [.lockAcquire, .cacheGet (amiCacheKey client.region os), .lockRelease]) := by
  simp [getDefaultAMIID, hf, h]

theorem getDefaultAMIID_miss_err {client : EC2Client} {os : String} {now : Time} {c : Cache}
    {f : amiFilter} {e : String} (hf : amiFilters os = some f)
    (hm : c.get now (amiCacheKey client.region os) = none)
    (hq : client.describeImages ⟨[f.owner], f.description, "hvm", "ebs"⟩ = .error e) :
    getDefaultAMIID client os now c
      = (.err e, c,
          [.lockAcquire, .cacheGet (amiCacheKey client.region os), .queryImages,
            .lockRelease]) := by
  simp [getDefaultAMIID, hf, hm, hq]

theorem getDefaultAMIID_miss_empty {client : EC2Client} {os : String} {now : Time} {c : Cache}
    {f : amiFilter} (hf : amiFilters os = some f)
    (hm : c.get now (amiCacheKey client.region os) = none)
    (hq : client.describeImages ⟨[f.owner], f.description, "hvm", "ebs"⟩ = .ok []) :
    getDefaultAMIID client os now c
      = (.err ("could not find Image for " ++ squote ++ os ++ squote), c,
          [.lockAcquire, .cacheGet (amiCacheKey client.region os), .queryImages,
            .lockRelease]) := by
  simp [getDefaultAMIID, hf, hm, hq]

theorem getDefaultAMIID_miss_pick {client : EC2Client} {os : String} {now : Time} {c : Cache}
    {f : amiFilter} {first : Image} {rest : List Image} (hf : amiFilters os = some f)
    (hm : c.get now (amiCacheKey client.region os) = none)
    (hq : client.describeImages ⟨[f.owner], f.description, "hvm", "ebs"⟩
      = .ok (first :: rest)) :
    getDefaultAMIID client os now c
      = (.ok (pickImage first rest).imageId,
          c.setDefault now (amiCacheKey client.region os) (.str (pickImage first rest).imageId),
          [.lockAcquire, .cacheGet (amiCacheKey client.region os), .queryImages,
            .cacheSet (amiCacheKey client.region os), .lockRelease]) := by
  simp [getDefaultAMIID, hf, hm, hq]

/-! ## Selection-loop lemmas -/

theorem imageTime_pickStep_left (a v : Image) : imageTime a ≤ imageTime (pickStep a v) := by
  unfold pickStep
  split
  · exact le_of_lt (by assumption)
  · exact le_refl _

theorem imageTime_pickStep_right (a v : Image) : imageTime v ≤ imageTime (pickStep a v) := by
  unfold pickStep
  split
  · exact le_refl _
  · exact le_of_not_lt (by assumption)

theorem foldl_pickStep_mem (l : List Image) (a : Image) :
    l.foldl pickStep a = a ∨ l.foldl pickStep a ∈ l := by
  induction l generalizing a with
  | nil => exact Or.inl rfl
  | cons v l ih =>
    rw [List.foldl_cons]
    rcases ih (pickStep a v) with h | h
    · rw [h]
      unfold pickStep
      split
      · exact Or.inr (List.mem_cons_self _ _)
      · exact Or.inl rfl
    · exact Or.inr (List.mem_cons_of_mem _ h)

theorem foldl_pickStep_ge_init (l : List Image) (a : Image) :
    imageTime a ≤ imageTime (l.foldl pickStep a) := by
  induction l generalizing a with
  | nil => exact le_refl _
  | cons v l ih =>
    rw [List.foldl_cons]
    exact le_trans (imageTime_pickStep_left a v) (ih (pickStep a v))

theorem foldl_pickStep_ge_mem (l : List Image) (a : Image) :
    ∀ v ∈ l, imageTime v ≤ imageTime (l.foldl pickStep a) := by
  induction l generalizing a with
  | nil => intro v hv; cases hv
  | cons u l ih =>
    intro v hv
    rw [List.foldl_cons]
    rcases List.mem_cons.mp hv with h | h
    · subst h
      exact le_trans (imageTime_pickStep_right a v) (foldl_pickStep_ge_init l (pickStep a v))
    · exact ih (pickStep a u) v h

theorem foldl_pickStep_stable (l : List Image) (a : Image)
    (h : ∀ v ∈ l, imageTime v ≤ imageTime a) : l.foldl pickStep a = a := by
  induction l with
  | nil => rfl
  | cons u l ih =>
    rw [List.foldl_cons]
    have hu : pickStep a u = a := by
      unfold pickStep
      rw [if_neg (not_lt.mpr (h u (List.mem_cons_self _ _)))]
    rw [hu]
    exact ih (fun v hv => h v (List.mem_cons_of_mem _ hv))

theorem pickImage_mem (first : Image) (rest : List Image) :
    pickImage first rest ∈ first :: rest := by
  unfold pickImage
  rcases foldl_pickStep_mem (first :: rest) first with h | h
  · rw [h]; exact List.mem_cons_self _ _
  · exact h

theorem pickImage_ge (first : Image) (rest : List Image) :
    ∀ v ∈ first :: rest, imageTime v ≤ imageTime (pickImage first rest) :=
  foldl_pickStep_ge_mem (first :: rest) first

theorem pickImage_of_all_le_first (first : Image) (rest : List Image)
    (h : ∀ v ∈ rest, imageTime v ≤ imageTime first) : pickImage first rest = first := by
  unfold pickImage
  apply foldl_pickStep_stable
  intro v hv
  rcases List.mem_cons.mp hv with h2 | h2
  · rw [h2]
  · exact h v h2

theorem imageTime_parse_none {img : Image} (h : parseRFC3339 img.creationDate = none) :
    imageTime img = 0 := by
  unfold imageTime
  rw [h]

theorem parse_some_of_imageTime_pos {img : Image} (h : 0 < imageTime img) :
    parseRFC3339 img.creationDate = some (imageTime img) := by
  rcases hp : parseRFC3339 img.creationDate with _ | t
  · rw [imageTime_parse_none hp] at h
    exact absurd h (lt_irrefl 0)
  · unfold imageTime
    rw [hp]

/-! ## Cache-key lemmas -/

theorem string_append_right_inj (s a b : String) : s ++ a = s ++ b ↔ a = b := by
  constructor
  · intro h
    have hd := congrArg String.data h
    simp only [String.data_append] at hd
    exact String.ext (List.append_cancel_left hd)
  · intro h
    rw [h]

theorem vpcCacheKey_eq_iff (r i r2 i2 : String) :
    vpcCacheKey r i = vpcCacheKey r2 i2 ↔ r ++ "-" ++ i = r2 ++ "-" ++ i2 := by
  unfold vpcCacheKey
  simp only [String.append_assoc]
  exact string_append_right_inj _ _ _

theorem amiCacheKey_eq_iff (r o r2 o2 : String) :
    amiCacheKey r o = amiCacheKey r2 o2 ↔ r ++ "-" ++ o = r2 ++ "-" ++ o2 := by
  unfold amiCacheKey
  simp only [String.append_assoc]
  exact string_append_right_inj _ _ _

theorem vpcCacheKey_ne_amiCacheKey (r i r2 o2 : String) :
    vpcCacheKey r i ≠ amiCacheKey r2 o2 := by
  intro h
  have hd := congrArg String.data h
  simp only [vpcCacheKey, amiCacheKey, String.data_append] at hd
  simp at hd

/-! ## Serialized-caller lemmas -/

theorem queryCount_nil : queryCount [] = 0 := rfl

theorem queryCount_cons (tr : List Event) (trs : List (List Event)) :
    queryCount (tr :: trs) = (tr.filter Event.isQuery).length + queryCount trs := by
  simp [queryCount]

theorem queryCount_replicate (n : Nat) (tr : List Event) :
    queryCount (List.replicate n tr) = n * (tr.filter Event.isQuery).length := by
  induction n with
  | zero => simp [queryCount]
  | succ n ih =>
    rw [List.replicate_succ, queryCount_cons, ih]
    ring

theorem runVpcCallers_hit {client : EC2Client} {id : String} {now : Time} {c : Cache} {v : Vpc}
    (h : c.get now (vpcCacheKey client.region id) = some (.vpc v)) (n : Nat) :
    runVpcCallers client id now n c
      = (List.replicate n (.ok v), c,
          List.replicate n
            [.lockAcquire, .cacheGet (vpcCacheKey client.region id), .lockRelease]) := by
  induction n with
  | zero => simp [runVpcCallers]
  | succ n ih =>
    rw [runVpcCallers, getVpc_hit h]
    simp [ih, List.replicate_succ]

theorem runVpcCallers_err {client : EC2Client} {id : String} {now : Time} {c : Cache}
    {e : String} (hm : c.get now (vpcCacheKey client.region id) = none)
    (hq : client.describeVpcs id = .error e) (n : Nat) :
    runVpcCallers client id now n c
      = (List.replicate n (.err (awsErrorToTerminalError e failedToListVpcsMsg)), c,
          List.replicate n
            [.lockAcquire, .cacheGet (vpcCacheKey client.region id), .queryVpcs,
              .lockRelease]) := by
  induction n with
  | zero => simp [runVpcCallers]
  | succ n ih =>
    rw [runVpcCallers, getVpc_miss_err hm hq]
    simp [ih, List.replicate_succ]

theorem runVpcCallers_coalesce {client : EC2Client} {id : String} {now : Time} {c : Cache}
    {v : Vpc} (hm : c.get now (vpcCacheKey client.region id) = none)
    (hq : client.describeVpcs id = .ok [v]) (hTTL : 0 < c.defaultTTL) (n : Nat) :
    runVpcCallers client id now (n + 1) c
      = (List.replicate (n + 1) (.ok v),
          c.setDefault now (vpcCacheKey client.region id) (.vpc v),
          [.lockAcquire, .cacheGet (vpcCacheKey client.region id), .queryVpcs,
              .cacheSet (vpcCacheKey client.region id), .lockRelease]
            :: List.replicate n
                [.lockAcquire, .cacheGet (vpcCacheKey client.region id), .lockRelease]) := by
  have hhit : (c.setDefault now (vpcCacheKey client.region id) (.vpc v)).get now
      (vpcCacheKey client.region id) = some (.vpc v) := by
    rw [Cache.get_setDefault_self]
    rw [if_pos (Nat.lt_add_of_pos_right hTTL)]
  rw [runVpcCallers, getVpc_miss_one hm hq]
  simp [runVpcCallers_hit hhit n, List.replicate_succ]

theorem runAmiCallers_hit {client : EC2Client} {os : String} {now : Time} {c : Cache}
    {f : amiFilter} {s : String} (hf : amiFilters os = some f)
    (h : c.get now (amiCacheKey client.region os) = some (.str s)) (n : Nat) :
    runAmiCallers client os now n c
      = (List.replicate n (.ok s), c,
          List.replicate n
            [.lockAcquire, .cacheGet (amiCacheKey client.region os), .lockRelease]) := by
  induction n with
  | zero => simp [runAmiCallers]
  | succ n ih =>
    rw [runAmiCallers, getDefaultAMIID_hit hf h]
    simp [ih, List.replicate_succ]

theorem runAmiCallers_err {client : EC2Client} {os : String} {now : Time} {c : Cache}
    {f : amiFilter} {e : String} (hf : amiFilters os = some f)
    (hm : c.get now (amiCacheKey client.region os) = none)
    (hq : client.describeImages ⟨[f.owner], f.description, "hvm", "ebs"⟩ = .error e)
    (n : Nat) :
    runAmiCallers client os now n c
      = (List.replicate n (.err e), c,
          List.replicate n
            [.lockAcquire, .cacheGet (amiCacheKey client.region os), .queryImages,
              .lockRelease]) := by
  induction n with
  | zero => simp [runAmiCallers]
  | succ n ih =>
    rw [runAmiCallers, getDefaultAMIID_miss_err hf hm hq]
    simp [ih, List.replicate_succ]

theorem runAmiCallers_coalesce {client : EC2Client} {os : String} {now : Time} {c : Cache}
    {f : amiFilter} {first : Image} {rest : List Image} (hf : amiFilters os = some f)
    (hm : c.get now (amiCacheKey client.region os) = none)
    (hq : client.describeImages ⟨[f.owner], f.description, "hvm", "ebs"⟩
      = .ok (first :: rest))
    (hTTL : 0 < c.defaultTTL) (n : Nat) :
    runAmiCallers client os now (n + 1) c
      = (List.replicate (n + 1) (.ok (pickImage first rest).imageId),
          c.setDefault now (amiCacheKey client.region os)
            (.str (pickImage first rest).imageId),
          [.lockAcquire, .cacheGet (amiCacheKey client.region os), .queryImages,
              .cacheSet (amiCacheKey client.region os), .lockRelease]
            :: List.replicate n
                [.lockAcquire, .cacheGet (amiCacheKey client.region os), .lockRelease]) := by
  have hhit : (c.setDefault now (amiCacheKey client.region os)
      (.str (pickImage first rest).imageId)).get now (amiCacheKey client.region os)
      = some (.str (pickImage first rest).imageId) := by
    rw [Cache.get_setDefault_self]
    rw [if_pos (Nat.lt_add_of_pos_right hTTL)]
  rw [runAmiCallers, getDefaultAMIID_miss_pick hf hm hq]
  simp [runAmiCallers_hit hf hhit n, List.replicate_succ]

/-! ## Sample collaborators for concrete runs -/

/-- A sample VPC descriptor. -/
def vpc1 : Vpc := ⟨"vpc-1"⟩

/-- Sample image candidate from the newest-wins example of the spec. -/
def imgA : Image := ⟨"ami-2020", "2020-01-01T00:00:00Z"⟩

/-- Sample image timestamped 2021-06-15T00:00:00Z. -/
def imgB : Image := ⟨"ami-2021", "2021-06-15T00:00:00Z"⟩

/-- Sample image with an unparsable creation date. -/
def imgG : Image := ⟨"ami-garbage", "garbage"⟩

/-- A client whose queries succeed deterministically. -/
def okClient : EC2Client :=
  ⟨"us-east-1", fun _ => .ok [vpc1], fun _ => .ok [imgA, imgB, imgG]⟩

/-- A client whose queries fail deterministically. -/
def errClient : EC2Client :=
  ⟨"us-east-1", fun _ => .error "boom", fun _ => .error "boom"⟩

/-- A client returning two VPC descriptors for every query (ambiguity). -/
def ambClient : EC2Client :=
  ⟨"us-east-1", fun _ => .ok [vpc1, ⟨"vpc-2"⟩], fun _ => .error "unused"⟩

/-- A client returning a candidate timestamped before the Go zero time
next to an unparsable candidate. -/
def preZeroClient : EC2Client :=
  ⟨"us-east-1", fun _ => .error "unused",
    fun _ => .ok [⟨"i1", "0001-01-01T00:00:00+01:00"⟩, ⟨"i2", "garbage"⟩]⟩

/-- A client returning only unparsable-timestamp candidates. -/
def unparsableClient : EC2Client :=
  ⟨"us-east-1", fun _ => .error "unused",
    fun _ => .ok [⟨"i1", "garbage"⟩, ⟨"i2", "junk"⟩]⟩

/-! ## Claim theorems -/

/-- C2 (amended): for every region and every operating system with no
entry in the static filter table, `getDefaultAMIID` fails with the
not-supported configuration error before any cache access and before the
external `DescribeImages` query — the whole trace is lock-acquire,
lock-release, with no query and no cache events — and the store is
returned unchanged (no cache write).  Contrary to the claim, this happens
only after acquiring the process-wide lock: helper.go takes the lock on
entry (lines 126-127), before the table lookup (line 129); see the
counterexample. -/
theorem c2_unsupported_os (client : EC2Client) (os : String) (now : Time) (c : Cache)
    (h : amiFilters os = none) :
    getDefaultAMIID client os now c
      = (.err ("operating system " ++ goQuote os ++ " not supported"), c,
          [.lockAcquire, .lockRelease]) :=
  getDefaultAMIID_unsupported h

/-- C2 witness: `plan9` in any region yields the configuration error, an
unchanged store, and a trace free of query and cache events. -/
theorem c2_unsupported_os_witness :
    getDefaultAMIID okClient "plan9" 0 cache
      = (.err ("operating system " ++ goQuote "plan9" ++ " not supported"), cache,
          [.lockAcquire, .lockRelease]) :=
  c2_unsupported_os okClient "plan9" 0 cache (by decide)

/-- C2 counterexample: the claim requires the unsupported-OS error to be
returned "before touching the coordination lock"; the trace of the failing
call contains the lock-acquire event — the process-wide lock is acquired
first. -/
theorem c2_counterexample :
    (getDefaultAMIID okClient "plan9" 0 cache).2.2 = [.lockAcquire, .lockRelease]
      ∧ Event.lockAcquire ∈ (getDefaultAMIID okClient "plan9" 0 cache).2.2 := by
  decide

/-- C5: on a miss, when `DescribeVpcs` returns a descriptor list whose
length is not exactly one (zero, or two or more), `getVpc` returns the
unable-to-find-specified-vpc error rather than silently picking a
descriptor, and performs no cache write (the store is returned
unchanged); it returns a descriptor only when the query returned exactly
one match. -/
theorem c5_ambiguity_rejection (client : EC2Client) (id : String) (now : Time) (c : Cache)
    (vs : List Vpc) (hm : c.get now (vpcCacheKey client.region id) = none)
    (hq : client.describeVpcs id = .ok vs) :
    (vs.length ≠ 1 →
      getVpc client id now c
        = (.err ("unable to find specified vpc with id " ++ goQuote id), c,
            [.lockAcquire, .cacheGet (vpcCacheKey client.region id), .queryVpcs,
              .lockRelease])) ∧
    (∀ v, (getVpc client id now c).1 = .ok v → vs = [v]) := by
  constructor
  · intro hlen
    exact getVpc_miss_badlen hm hq hlen
  · intro v hv
    rcases vs with _ | ⟨a, _ | ⟨b, t⟩⟩
    · rw [getVpc_miss_badlen hm hq (by simp)] at hv
      simp at hv
    · rw [getVpc_miss_one hm hq] at hv
      simp at hv
      simp [hv]
    · rw [getVpc_miss_badlen hm hq (by simp)] at hv
      simp at hv

/-- C5 witness: a query answering with two descriptors makes `getVpc` fail
and leaves the empty store empty. -/
theorem c5_ambiguity_rejection_witness :
    getVpc ambClient "vpc-X" 0 cache
      = (.err ("unable to find specified vpc with id " ++ goQuote "vpc-X"), cache,
          [.lockAcquire, .cacheGet (vpcCacheKey "us-east-1" "vpc-X"), .queryVpcs,
            .lockRelease]) :=
  (c5_ambiguity_rejection ambClient "vpc-X" 0 cache [vpc1, ⟨"vpc-2"⟩] rfl rfl).1 (by decide)

/-- C6 (amended): when the external query itself fails on a miss, the
failure is surfaced to the caller and the store is unchanged — the lookup
layer neither masks nor retries it.  `getVpc` wraps the upstream error
with context identifying the failed operation (via
`awsErrorToTerminalError` and the failed-to-list-vpcs message);
`getDefaultAMIID` — contrary to the claim — returns the upstream error
verbatim with no added context (helper.go line 158). -/
theorem c6_upstream_error (client : EC2Client) (now : Time) (c : Cache) :
    (∀ id e, c.get now (vpcCacheKey client.region id) = none →
      client.describeVpcs id = .error e →
      getVpc client id now c
        = (.err (awsErrorToTerminalError e failedToListVpcsMsg), c,
            [.lockAcquire, .cacheGet (vpcCacheKey client.region id), .queryVpcs,
              .lockRelease])) ∧
    (∀ os f e, amiFilters os = some f →
      c.get now (amiCacheKey client.region os) = none →
      client.describeImages ⟨[f.owner], f.description, "hvm", "ebs"⟩ = .error e →
      getDefaultAMIID client os now c
        = (.err e, c,
            [.lockAcquire, .cacheGet (amiCacheKey client.region os), .queryImages,
              .lockRelease])) :=
  ⟨fun _ _ hm hq => getVpc_miss_err hm hq,
   fun _ _ _ hf hm hq => getDefaultAMIID_miss_err hf hm hq⟩

/-- C6 witness: a deterministic upstream failure "boom": `getVpc` returns
it wrapped with its context message, `getDefaultAMIID` returns it bare;
the store is unchanged in both. -/
theorem c6_upstream_error_witness :
    getVpc errClient "v1" 0 cache
      = (.err (awsErrorToTerminalError "boom" failedToListVpcsMsg), cache,
          [.lockAcquire, .cacheGet (vpcCacheKey "us-east-1" "v1"), .queryVpcs,
            .lockRelease])
    ∧ getDefaultAMIID errClient "ubuntu" 0 cache
      = (.err "boom", cache,
          [.lockAcquire, .cacheGet (amiCacheKey "us-east-1" "ubuntu"), .queryImages,
            .lockRelease]) :=
  ⟨(c6_upstream_error errClient 0 cache).1 "v1" "boom" rfl rfl,
   (c6_upstream_error errClient 0 cache).2 "ubuntu"
     ⟨"Canonical, Ubuntu, 18.04 LTS, amd64 bionic image build on ????-??-??", "099720109477"⟩
     "boom" (by decide) rfl rfl⟩

/-- C6 counterexample: the upstream `DescribeImages` failure "boom" is
returned by `getDefaultAMIID` exactly as-is: the error reaching the caller
is the upstream string itself, with no context identifying which operation
failed, contrary to the claim that both lookup policies wrap it. -/
theorem c6_counterexample :
    (getDefaultAMIID errClient "ubuntu" 0 cache).1 = .err "boom" := by decide

/-- C3 (amended): on a miss with a non-empty candidate list, the image id
returned (and cached) by `getDefaultAMIID` is that of a candidate whose
effective instant — the RFC3339-parsed creation timestamp, or the Go zero
time when parsing fails — is maximal among all candidates.  Every
parseable candidate therefore has its instant at most the winner has, and
whenever the winner has a positive effective instant the winner itself is
parseable with that instant.  An unparsable candidate thus never beats a
best whose instant is at or after the Go zero time, but — contrary to the
claim — it does win a comparison solely due to the parse failure when the
current best parses to an instant strictly before the zero time (a year
0000 date, or a year 0001 date with a positive offset); see the
counterexample. -/
theorem c3_newest_wins (client : EC2Client) (os : String) (f : amiFilter)
    (now : Time) (c : Cache) (first : Image) (rest : List Image)
    (hf : amiFilters os = some f)
    (hm : c.get now (amiCacheKey client.region os) = none)
    (hq : client.describeImages ⟨[f.owner], f.description, "hvm", "ebs"⟩
      = .ok (first :: rest)) :
    (getDefaultAMIID client os now c).1 = .ok (pickImage first rest).imageId ∧
    pickImage first rest ∈ first :: rest ∧
    (∀ v ∈ first :: rest, imageTime v ≤ imageTime (pickImage first rest)) ∧
    (0 < imageTime (pickImage first rest) →
      parseRFC3339 (pickImage first rest).creationDate
        = some (imageTime (pickImage first rest))) := by
  refine ⟨?_, pickImage_mem first rest, pickImage_ge first rest,
    fun h => parse_some_of_imageTime_pos h⟩
  rw [getDefaultAMIID_miss_pick hf hm hq]

/-- C3 witness: the candidate list of the spec example — timestamps
2020-01-01T00:00:00Z, 2021-06-15T00:00:00Z and the unparsable "garbage" —
resolves to the image timestamped 2021-06-15T00:00:00Z. -/
theorem c3_newest_wins_witness :
    (getDefaultAMIID okClient "ubuntu" 0 cache).1 = .ok "ami-2021" := by
  have h := c3_newest_wins okClient "ubuntu"
    ⟨"Canonical, Ubuntu, 18.04 LTS, amd64 bionic image build on ????-??-??", "099720109477"⟩
    0 cache imgA [imgB, imgG] (by decide) rfl rfl
  rw [h.1]
  decide

/-- C3 counterexample: candidates i1 (timestamp 0001-01-01T00:00:00+01:00,
the only parseable RFC3339 timestamp of the list, one hour before the Go
zero time) and i2 (timestamp "garbage", unparsable): `getDefaultAMIID`
returns i2, not the candidate with the latest parseable timestamp — the
swallowed parse error reads as the zero instant, which wins the
`After` comparison against the earlier parsed instant. -/
theorem c3_counterexample :
    (getDefaultAMIID preZeroClient "ubuntu" 0 cache).1 = .ok "i2" ∧
    parseRFC3339 "0001-01-01T00:00:00+01:00" = some (-3600000000000) ∧
    parseRFC3339 "garbage" = none := by decide

/-- C9: on a miss with a non-empty candidate list in which no candidate
has a parseable RFC3339 creation timestamp, `getDefaultAMIID` succeeds
and returns (and caches) the image id of the first candidate: every
effective instant is the zero time, so no comparison ever replaces the
initial best. -/
theorem c9_all_unparsable_first (client : EC2Client) (os : String) (f : amiFilter)
    (now : Time) (c : Cache) (first : Image) (rest : List Image)
    (hf : amiFilters os = some f)
    (hm : c.get now (amiCacheKey client.region os) = none)
    (hq : client.describeImages ⟨[f.owner], f.description, "hvm", "ebs"⟩
      = .ok (first :: rest))
    (hall : ∀ v ∈ first :: rest, parseRFC3339 v.creationDate = none) :
    (getDefaultAMIID client os now c).1 = .ok first.imageId ∧
    (getDefaultAMIID client os now c).2.1
      = c.setDefault now (amiCacheKey client.region os) (.str first.imageId) := by
  have hpick : pickImage first rest = first := by
    apply pickImage_of_all_le_first
    intro v hv
    rw [imageTime_parse_none (hall v (List.mem_cons_of_mem _ hv)),
        imageTime_parse_none (hall first (List.mem_cons_self _ _))]
  rw [getDefaultAMIID_miss_pick hf hm hq, hpick]
  exact ⟨rfl, rfl⟩

/-- C9 witness: two candidates with unparsable timestamps "garbage" and
"junk": the first one, i1, is returned. -/
theorem c9_all_unparsable_first_witness :
    (getDefaultAMIID unparsableClient "ubuntu" 0 cache).1 = .ok "i1" :=
  (c9_all_unparsable_first unparsableClient "ubuntu"
    ⟨"Canonical, Ubuntu, 18.04 LTS, amd64 bionic image build on ????-??-??", "099720109477"⟩
    0 cache ⟨"i1", "garbage"⟩ [⟨"i2", "junk"⟩] (by decide) rfl rfl (by decide)).1

/-- C4 (amended): every failing miss leaves the store unchanged (no
negative caching), so the key stays absent.  For the query-path failures —
upstream error, VPC match count other than one, empty image candidate
list — an immediately following call for the same key does re-invoke the
external query.  For the unsupported-operating-system failure the store is
also unchanged, but — contrary to the claim — the immediately following
call performs no external query at all: it fails again before the query
(see the counterexample). -/
theorem c4_no_negative_caching (client : EC2Client) (id os : String) (f : amiFilter)
    (now : Time) (c : Cache) :
    (c.get now (vpcCacheKey client.region id) = none →
      (∀ e, client.describeVpcs id = .error e →
        (getVpc client id now c).2.1 = c ∧
        .queryVpcs ∈ (getVpc client id now (getVpc client id now c).2.1).2.2) ∧
      (∀ vs, client.describeVpcs id = .ok vs → vs.length ≠ 1 →
        (getVpc client id now c).2.1 = c ∧
        .queryVpcs ∈ (getVpc client id now (getVpc client id now c).2.1).2.2)) ∧
    (amiFilters os = some f → c.get now (amiCacheKey client.region os) = none →
      (∀ e, client.describeImages ⟨[f.owner], f.description, "hvm", "ebs"⟩ = .error e →
        (getDefaultAMIID client os now c).2.1 = c ∧
        .queryImages ∈ (getDefaultAMIID client os now
          (getDefaultAMIID client os now c).2.1).2.2) ∧
      (client.describeImages ⟨[f.owner], f.description, "hvm", "ebs"⟩ = .ok [] →
        (getDefaultAMIID client os now c).2.1 = c ∧
        .queryImages ∈ (getDefaultAMIID client os now
          (getDefaultAMIID client os now c).2.1).2.2)) ∧
    (amiFilters os = none →
      (getDefaultAMIID client os now c).2.1 = c) := by
  refine ⟨fun hm => ⟨?_, ?_⟩, fun hf hm => ⟨?_, ?_⟩, fun hu => ?_⟩
  · intro e hq
    have h1 := getVpc_miss_err hm hq
    have h2 : (getVpc client id now c).2.1 = c := by rw [h1]
    refine ⟨h2, ?_⟩
    rw [h2, h1]
    simp
  · intro vs hq hlen
    have h1 := getVpc_miss_badlen hm hq hlen
    have h2 : (getVpc client id now c).2.1 = c := by rw [h1]
    refine ⟨h2, ?_⟩
    rw [h2, h1]
    simp
  · intro e hq
    have h1 := getDefaultAMIID_miss_err hf hm hq
    have h2 : (getDefaultAMIID client os now c).2.1 = c := by rw [h1]
    refine ⟨h2, ?_⟩
    rw [h2, h1]
    simp
  · intro hq
    have h1 := getDefaultAMIID_miss_empty hf hm hq
    have h2 : (getDefaultAMIID client os now c).2.1 = c := by rw [h1]
    refine ⟨h2, ?_⟩
    rw [h2, h1]
    simp
  · rw [getDefaultAMIID_unsupported hu]

/-- C4 witness: a deterministically failing VPC query: the store is
unchanged and the immediately following call issues the query again. -/
theorem c4_no_negative_caching_witness :
    (getVpc errClient "v1" 0 cache).2.1 = cache ∧
    Event.queryVpcs ∈ (getVpc errClient "v1" 0 (getVpc errClient "v1" 0 cache).2.1).2.2 :=
  ((c4_no_negative_caching errClient "v1" "ubuntu"
    ⟨"Canonical, Ubuntu, 18.04 LTS, amd64 bionic image build on ????-??-??", "099720109477"⟩
    0 cache).1 rfl).1 "boom" rfl

/-- C4 counterexample: the claim counts the unsupported-operating-system
failure among the failing misses whose immediately following call
re-invokes the external query; after `getDefaultAMIID` fails for "plan9"
(store unchanged), the immediately following call for the same key
performs no external query at all. -/
theorem c4_counterexample :
    (getDefaultAMIID okClient "plan9" 0 cache).2.1 = cache ∧
    ((getDefaultAMIID okClient "plan9" 0
        (getDefaultAMIID okClient "plan9" 0 cache).2.1).2.2.filter Event.isQuery) = [] := by
  decide

/-- C10: on a successful miss the value written into the store under the
computed key is exactly the value returned to the caller, and that value
comes from the external response: `getVpc` caches and returns one of the
descriptors of the `DescribeVpcs` response, and `getDefaultAMIID` caches
and returns the image id of one of the `DescribeImages` candidates. -/
theorem c10_write_matches_return (client : EC2Client) (id os : String) (f : amiFilter)
    (now : Time) (c : Cache) :
    (c.get now (vpcCacheKey client.region id) = none →
      ∀ v, (getVpc client id now c).1 = .ok v →
        (∃ vs, client.describeVpcs id = .ok vs ∧ v ∈ vs) ∧
        (getVpc client id now c).2.1
          = c.setDefault now (vpcCacheKey client.region id) (.vpc v)) ∧
    (amiFilters os = some f → c.get now (amiCacheKey client.region os) = none →
      ∀ s, (getDefaultAMIID client os now c).1 = .ok s →
        (∃ imgs, client.describeImages ⟨[f.owner], f.description, "hvm", "ebs"⟩ = .ok imgs ∧
          ∃ img ∈ imgs, img.imageId = s) ∧
        (getDefaultAMIID client os now c).2.1
          = c.setDefault now (amiCacheKey client.region os) (.str s)) := by
  constructor
  · intro hm v hv
    rcases hqv : client.describeVpcs id with e | vs
    · rw [getVpc_miss_err hm hqv] at hv
      simp at hv
    · rcases vs with _ | ⟨a, _ | ⟨b, t⟩⟩
      · rw [getVpc_miss_badlen hm hqv (by simp)] at hv
        simp at hv
      · rw [getVpc_miss_one hm hqv] at hv
        simp at hv
        refine ⟨⟨[a], rfl, by simp [hv]⟩, ?_⟩
        rw [getVpc_miss_one hm hqv, hv]
      · rw [getVpc_miss_badlen hm hqv (by simp)] at hv
        simp at hv
  · intro hf hm s hs
    rcases hq : client.describeImages ⟨[f.owner], f.description, "hvm", "ebs"⟩ with e | imgs
    · rw [getDefaultAMIID_miss_err hf hm hq] at hs
      simp at hs
    · rcases imgs with _ | ⟨first, rest⟩
      · rw [getDefaultAMIID_miss_empty hf hm hq] at hs
        simp at hs
      · rw [getDefaultAMIID_miss_pick hf hm hq] at hs
        simp at hs
        refine ⟨⟨first :: rest, rfl, pickImage first rest, pickImage_mem first rest, hs⟩, ?_⟩
        rw [getDefaultAMIID_miss_pick hf hm hq, hs]

/-- C10 witness: the successful sample client: `getVpc` returns and caches
the single descriptor of the response; `getDefaultAMIID` returns and
caches the image id of one of the candidates. -/
theorem c10_write_matches_return_witness :
    ((∃ vs, okClient.describeVpcs "v1" = .ok vs ∧ vpc1 ∈ vs) ∧
      (getVpc okClient "v1" 0 cache).2.1
        = cache.setDefault 0 (vpcCacheKey "us-east-1" "v1") (.vpc vpc1)) ∧
    ((∃ imgs, okClient.describeImages
        ⟨["099720109477"], "Canonical, Ubuntu, 18.04 LTS, amd64 bionic image build on ????-??-??",
          "hvm", "ebs"⟩ = .ok imgs ∧ ∃ img ∈ imgs, img.imageId = "ami-2021") ∧
      (getDefaultAMIID okClient "ubuntu" 0 cache).2.1
        = cache.setDefault 0 (amiCacheKey "us-east-1" "ubuntu") (.str "ami-2021")) :=
  ⟨(c10_write_matches_return okClient "v1" "ubuntu"
      ⟨"Canonical, Ubuntu, 18.04 LTS, amd64 bionic image build on ????-??-??", "099720109477"⟩
      0 cache).1 rfl vpc1 (by decide),
   (c10_write_matches_return okClient "v1" "ubuntu"
      ⟨"Canonical, Ubuntu, 18.04 LTS, amd64 bionic image build on ????-??-??", "099720109477"⟩
      0 cache).2 (by decide) rfl "ami-2021" (by decide)⟩

/-- C1 (amended): the process-wide lock is held for the whole body of each
helper, so N concurrent callers of one unpopulated key run as N serialized
whole-body critical sections; every caller checks the cache only after
acquiring the lock (each trace below opens with lock-acquire followed by
the cache check).  If the external query deterministically succeeds — a
single-descriptor response for `getVpc`, a nonempty candidate list for
`getDefaultAMIID` on a supported operating system — the query is invoked
exactly once among the N callers: the first populates the store and every
lock-race loser finds the entry populated on its post-lock cache check and
returns the same value without re-querying.  If the query
deterministically fails, all N callers receive the same error, but —
contrary to the claim that the query runs at most once even when all
callers receive the same error — the failed miss is not cached and every
caller re-invokes the query: N invocations (see the counterexample). -/
theorem c1_coalescing (client : EC2Client) (id os : String) (f : amiFilter)
    (now : Time) (c : Cache) (n : Nat) (hTTL : 0 < c.defaultTTL) :
    (c.get now (vpcCacheKey client.region id) = none →
      (∀ v, client.describeVpcs id = .ok [v] →
        runVpcCallers client id now (n + 1) c
          = (List.replicate (n + 1) (.ok v),
              c.setDefault now (vpcCacheKey client.region id) (.vpc v),
              [.lockAcquire, .cacheGet (vpcCacheKey client.region id), .queryVpcs,
                  .cacheSet (vpcCacheKey client.region id), .lockRelease]
                :: List.replicate n
                    [.lockAcquire, .cacheGet (vpcCacheKey client.region id), .lockRelease])
          ∧ queryCount (runVpcCallers client id now (n + 1) c).2.2 = 1) ∧
      (∀ e, client.describeVpcs id = .error e →
        runVpcCallers client id now (n + 1) c
          = (List.replicate (n + 1) (.err (awsErrorToTerminalError e failedToListVpcsMsg)),
              c,
              List.replicate (n + 1)
                [.lockAcquire, .cacheGet (vpcCacheKey client.region id), .queryVpcs,
                  .lockRelease])
          ∧ queryCount (runVpcCallers client id now (n + 1) c).2.2 = n + 1)) ∧
    (amiFilters os = some f → c.get now (amiCacheKey client.region os) = none →
      (∀ first rest,
        client.describeImages ⟨[f.owner], f.description, "hvm", "ebs"⟩ = .ok (first :: rest) →
        runAmiCallers client os now (n + 1) c
          = (List.replicate (n + 1) (.ok (pickImage first rest).imageId),
              c.setDefault now (amiCacheKey client.region os)
                (.str (pickImage first rest).imageId),
              [.lockAcquire, .cacheGet (amiCacheKey client.region os), .queryImages,
                  .cacheSet (amiCacheKey client.region os), .lockRelease]
                :: List.replicate n
                    [.lockAcquire, .cacheGet (amiCacheKey client.region os), .lockRelease])
          ∧ queryCount (runAmiCallers client os now (n + 1) c).2.2 = 1) ∧
      (∀ e, client.describeImages ⟨[f.owner], f.description, "hvm", "ebs"⟩ = .error e →
        runAmiCallers client os now (n + 1) c
          = (List.replicate (n + 1) (.err e), c,
              List.replicate (n + 1)
                [.lockAcquire, .cacheGet (amiCacheKey client.region os), .queryImages,
                  .lockRelease])
          ∧ queryCount (runAmiCallers client os now (n + 1) c).2.2 = n + 1)) := by
  constructor
  · intro hm
    constructor
    · intro v hq
      have h1 := runVpcCallers_coalesce hm hq hTTL n
      refine ⟨h1, ?_⟩
      rw [h1, queryCount_cons, queryCount_replicate]
      simp [Event.isQuery]
    · intro e hq
      have h1 := runVpcCallers_err hm hq (n + 1)
      refine ⟨h1, ?_⟩
      rw [h1, queryCount_replicate]
      simp [Event.isQuery]
  · intro hf hm
    constructor
    · intro first rest hq
      have h1 := runAmiCallers_coalesce hf hm hq hTTL n
      refine ⟨h1, ?_⟩
      rw [h1, queryCount_cons, queryCount_replicate]
      simp [Event.isQuery]
    · intro e hq
      have h1 := runAmiCallers_err hf hm hq (n + 1)
      refine ⟨h1, ?_⟩
      rw [h1, queryCount_replicate]
      simp [Event.isQuery]

/-- C1 witness: two serialized callers against the successful sample
client, for both helpers: one query invocation each, both callers
receiving the same value, the second trace showing the post-lock cache
hit. -/
theorem c1_coalescing_witness :
    (runVpcCallers okClient "v1" 0 2 cache
      = (List.replicate 2 (.ok vpc1),
          cache.setDefault 0 (vpcCacheKey "us-east-1" "v1") (.vpc vpc1),
          [.lockAcquire, .cacheGet (vpcCacheKey "us-east-1" "v1"), .queryVpcs,
              .cacheSet (vpcCacheKey "us-east-1" "v1"), .lockRelease]
            :: List.replicate 1
                [.lockAcquire, .cacheGet (vpcCacheKey "us-east-1" "v1"), .lockRelease])
      ∧ queryCount (runVpcCallers okClient "v1" 0 2 cache).2.2 = 1) ∧
    (runAmiCallers okClient "ubuntu" 0 2 cache
      = (List.replicate 2 (.ok (pickImage imgA [imgB, imgG]).imageId),
          cache.setDefault 0 (amiCacheKey "us-east-1" "ubuntu")
            (.str (pickImage imgA [imgB, imgG]).imageId),
          [.lockAcquire, .cacheGet (amiCacheKey "us-east-1" "ubuntu"), .queryImages,
              .cacheSet (amiCacheKey "us-east-1" "ubuntu"), .lockRelease]
            :: List.replicate 1
                [.lockAcquire, .cacheGet (amiCacheKey "us-east-1" "ubuntu"), .lockRelease])
      ∧ queryCount (runAmiCallers okClient "ubuntu" 0 2 cache).2.2 = 1) ∧
    (pickImage imgA [imgB, imgG]).imageId = "ami-2021" := by
  have h := c1_coalescing okClient "v1" "ubuntu"
    ⟨"Canonical, Ubuntu, 18.04 LTS, amd64 bionic image build on ????-??-??", "099720109477"⟩
    0 cache 1 (by decide)
  exact ⟨(h.1 rfl).1 vpc1 rfl, (h.2 (by decide) rfl).1 imgA [imgB, imgG] rfl, by decide⟩

/-- C1 counterexample: two serialized callers racing the same unpopulated
key whose external query deterministically fails: both receive the same
error, yet the external query is invoked twice — not "at most once rather
than N times" as the claim states — because the failed miss is never
cached and the lock-race loser re-queries. -/
theorem c1_counterexample :
    (runVpcCallers errClient "v1" 0 2 cache).1
      = [.err (awsErrorToTerminalError "boom" failedToListVpcsMsg),
          .err (awsErrorToTerminalError "boom" failedToListVpcsMsg)]
    ∧ queryCount (runVpcCallers errClient "v1" 0 2 cache).2.2 = 2 := by
  decide

/-- C7 (amended): cache-key construction is deterministic — a pure
function of the operation, region and parameter — and keys of the two
operations never collide (their prefixes differ).  Between two lookups of
the same operation, however, the construction is not injective: two keys
coincide exactly when the `region ++ "-" ++ parameter` concatenations
coincide, which hyphen-containing regions or parameters can make happen
for logically different lookups (see the counterexample), contrary to the
claimed never-collide invariant. -/
theorem c7_cache_key_characterization :
    (∀ r i r2 o2, vpcCacheKey r i ≠ amiCacheKey r2 o2) ∧
    (∀ r i r2 i2, vpcCacheKey r i = vpcCacheKey r2 i2 ↔ r ++ "-" ++ i = r2 ++ "-" ++ i2) ∧
    (∀ r o r2 o2, amiCacheKey r o = amiCacheKey r2 o2 ↔ r ++ "-" ++ o = r2 ++ "-" ++ o2) :=
  ⟨vpcCacheKey_ne_amiCacheKey, vpcCacheKey_eq_iff, amiCacheKey_eq_iff⟩

/-- C7 witness: a network key never equals an image key, and equal
logical inputs give equal keys while the region/parameter concatenation
decides equality within an operation. -/
theorem c7_cache_key_characterization_witness :
    vpcCacheKey "us-east-1" "vpc-1" ≠ amiCacheKey "us-east-1" "ubuntu" ∧
    (vpcCacheKey "us-east-1" "vpc-1" = vpcCacheKey "us-east-1" "vpc-1"
      ↔ "us-east-1" ++ "-" ++ "vpc-1" = "us-east-1" ++ "-" ++ "vpc-1") :=
  ⟨c7_cache_key_characterization.1 "us-east-1" "vpc-1" "us-east-1" "ubuntu",
   c7_cache_key_characterization.2.1 "us-east-1" "vpc-1" "us-east-1" "vpc-1"⟩

/-- C7 counterexample: the logically different network lookups
(region "us-east-1", id "abc") and (region "us", id "east-1-abc") produce
the same cache key, "vpc-us-east-1-abc" — a collision between distinct
(region, parameter) pairs of the same operation, contrary to the claimed
injectivity. -/
theorem c7_counterexample :
    vpcCacheKey "us-east-1" "abc" = vpcCacheKey "us" "east-1-abc"
    ∧ ¬("us-east-1" = "us" ∧ "abc" = "east-1-abc") := by
  decide
